import Mathlib

/-!
Verification of the error-classification mixin of `drf-friendly-errors`
(`rest_framework_friendly_errors/mixins.py`).

The development is a shallow embedding of `FriendlyErrorMessagesMixin`:
Python values are modelled by the inductive `FE.Value`, Python dicts by
insertion-ordered association lists, `str.format` by `FE.format` over a
list of template parts, and every fallible Python operation (`dict[k]`,
`str.format` with a missing placeholder, `len` of a non-sized value)
returns `Except FE.PyErr _`.  Mutable state of one serializer instance
(`self.fields`, `self.initial_data`, `self.registered_errors`,
the `FIELD_VALIDATION_ERRORS` / `NON_FIELD_ERRORS` class tables, and the
`validate_<field>` hook methods) is carried in the record `FE.SState`.
The external `settings` module and the `field_map` module of the
repository are not part of `src/`; they are modelled from the spec as
abstract lookup tables (`FE.Settings`, `FE.FieldMap`).
-/

namespace FE

/-- Python exception kinds that the embedded code can raise. -/
inductive PyErr where
  | keyError
  | typeError
deriving DecidableEq, Repr

/-- Python values as far as the mixin inspects them: `None`, booleans,
integers, strings, lists and dicts.  This is the type of submitted input
data and of reconstructed template parameters. -/
inductive Value where
  | vnone
  | vbool (b : Bool)
  | vint (n : Int)
  | vstr (s : String)
  | vlist (vs : List Value)
  | vdict (m : List (String × Value))

/-- Runtime type name of a value: Python `type(x).__name__`. -/
def typeName : Value → String
  | .vnone => "NoneType"
  | .vbool _ => "bool"
  | .vint _ => "int"
  | .vstr _ => "str"
  | .vlist _ => "list"
  | .vdict _ => "dict"

mutual

/-- Python `repr` of a value (strings are quoted); used when a value is
rendered inside a list or dict. -/
def reprV : Value → String
  | .vnone => "None"
  | .vbool b => if b then "True" else "False"
  | .vint n => toString n
  | .vstr s => "\x27" ++ s ++ "\x27"
  | .vlist vs => "[" ++ reprVList vs ++ "]"
  | .vdict m => "\x7b" ++ reprVDict m ++ "\x7d"

/-- Comma-separated `repr`s of list elements. -/
def reprVList : List Value → String
  | [] => ""
  | [v] => reprV v
  | v :: rest => reprV v ++ ", " ++ reprVList rest

/-- Comma-separated `repr`s of dict items. -/
def reprVDict : List (String × Value) → String
  | [] => ""
  | [(k, v)] => "\x27" ++ k ++ "\x27: " ++ reprV v
  | (k, v) :: rest => "\x27" ++ k ++ "\x27: " ++ reprV v ++ ", " ++ reprVDict rest

end

/-- Python `str` of a value, as used by `str.format` substitution. -/
def render : Value → String
  | .vstr s => s
  | v => reprV v

/-- First-binding lookup in an insertion-ordered association list
(Python `d.get(k)` / `k in d`; dict keys are unique in Python, so the
first binding is the binding). -/
def alLookup {α : Type} : List (String × α) → String → Option α
  | [], _ => none
  | (k, v) :: rest, key => if k = key then some v else alLookup rest key

/-- `d.get(k, dflt)`. -/
def alLookupD {α : Type} (l : List (String × α)) (key : String) (dflt : α) : α :=
  (alLookup l key).getD dflt

/-- `k in d`. -/
def alMem {α : Type} (l : List (String × α)) (key : String) : Bool :=
  (alLookup l key).isSome

/-- `d[k] = v`: replace the first binding of `k` in place, or append a new
binding at the end (Python dicts keep the insertion position of an
existing key on re-assignment). -/
def alInsert {α : Type} : List (String × α) → String → α → List (String × α)
  | [], key, v => [(key, v)]
  | (k, w) :: rest, key, v =>
    if k = key then (key, v) :: rest else (k, w) :: alInsert rest key v

/-- A `str.format` template is a sequence of literal pieces and named
placeholders. -/
inductive TPart where
  | lit (s : String)
  | var (n : String)
deriving DecidableEq, Repr

/-- A constraint-message template. -/
abbrev Template := List TPart

/-- The reconstructed keyword arguments for template formatting
(a Python dict `str → value`). -/
abbrev Kwargs := List (String × Value)

/-- `template.format(**kwargs)`: substitute `str(value)` for each named
placeholder; a placeholder absent from `kwargs` raises `KeyError`. -/
def format : Template → Kwargs → Except PyErr String
  | [], _ => .ok ""
  | .lit s :: rest, kw =>
    match format rest kw with
    | .ok r => .ok (s ++ r)
    | .error e => .error e
  | .var n :: rest, kw =>
    match alLookup kw n with
    | none => .error .keyError
    | some v =>
      match format rest kw with
      | .ok r => .ok (render v ++ r)
      | .error e => .error e

/-- Python `len(x)` for the sized values the code takes lengths of. -/
def pyLen : Value → Except PyErr Int
  | .vstr s => .ok s.length
  | .vlist vs => .ok vs.length
  | .vdict m => .ok m.length
  | _ => .error .typeError

/-- An optional integer attribute rendered as a Python value
(`None` when absent). -/
def optIntV : Option Int → Value
  | none => .vnone
  | some n => .vint n

/-- An optional string attribute rendered as a Python value. -/
def optStrV : Option String → Value
  | none => .vnone
  | some s => .vstr s

/-- Python `a or b` over optional integer codes: `None` and `0` are falsy
and fall through to `b`. -/
def pyOr (a b : Option Int) : Option Int :=
  match a with
  | some n => if n = 0 then b else some n
  | none => b

/-- `Except.isOk`, spelled out to keep the development self-contained. -/
def exIsOk {ε α : Type} : Except ε α → Bool
  | .ok _ => true
  | .error _ => false


/-- A custom validator callable attached to a field (or a serializer
`validate_<field>` hook).  `name` is `validator.__name__` (or its class
name when the callable is anonymous); `wantsValue` / `wantsField` record
which of the optional positional argument names `value` /
`serializer_field` appear in `inspect.getfullargspec(validator).args`.
`run` is the callable itself: it receives the submitted value when
`wantsValue` is set and returns `some m` when it raises a validation
failure carrying message `m`, `none` when it returns normally.  (The
`serializer_field` argument is the fixed field descriptor of the
enclosing call, so its influence is folded into `run`.) -/
structure SValidator where
  name : String
  wantsValue : Bool
  wantsField : Bool
  run : Option Value → Option String

/-- A classified error entry `{code, field, message}` as built by
`get_field_error_entry` / `get_non_field_error_entry` and stored by
`register_error`. -/
structure Entry where
  code : Option Int
  field : Option String
  message : String
deriving DecidableEq, Repr

/-- An element of a pretty `errors` list: a leaf entry dict, or a nested
wrap `{code, field, errors}` produced by `wrap_nested_errors`
(flat list for a `many=False` sub-serializer, list of lists for
`many=True`). -/
inductive PrettyError where
  | entry (e : Entry)
  | nestedSingle (code : Int) (field : String) (errors : List PrettyError)
  | nestedMany (code : Int) (field : String) (errors : List (List PrettyError))

/-- The `field` slot of a pretty error element (`sub_error['field']`). -/
def fieldOfP : PrettyError → Option String
  | .entry e => e.field
  | .nestedSingle _ f _ => some f
  | .nestedMany _ f _ => some f

/-- The slots of a sub-serializer `errors` dict that
`process_sub_serializer_errors` consults: `d.get('errors', [])` and
`d.get('non_field_errors', None)`. -/
structure SubErrDict where
  errors? : Option (List PrettyError)
  non_field_errors? : Option (List String)

/-- Result of running a sub-serializer validation pass and reading its
`errors` property: one dict for `many=False`, a list of per-record dicts
for `many=True` (`get_sub_serializer_errors` distinguishes the two by
`isinstance(field_errors, list)`). -/
inductive SubResult where
  | single (d : SubErrDict)
  | many (ds : List SubErrDict)

/-- A serializer-valued field (a `BaseSerializer` instance).  `errorsOf`
is the external recursive pipeline: assigning `initial_data` and running
`is_valid()` followed by reading `errors` yields `errorsOf data`.
`getSubclass` models the optional `get_subclass` attribute:
`none` = absent, `some none` = present but raising (silently swallowed),
`some (some s)` = resolves to the serializer `s`. -/
inductive SubSer where
  | mk (getSubclass : Option (Option SubSer)) (errorsOf : Value → SubResult)

/-- The `get_subclass` attribute of a sub-serializer. -/
def SubSer.getSubclass : SubSer → Option (Option SubSer)
  | .mk g _ => g

/-- The external validate-then-read-errors pipeline of a sub-serializer. -/
def SubSer.errorsOf : SubSer → Value → SubResult
  | .mk _ e => e

/-- Scalar attributes of a field descriptor, as the mixin reads them:
its class name (`type(field).__name__`), `field_name`, `source`, and the
constraint attributes consulted by `get_field_kwargs` (an absent
attribute reads as `None` via `getattr(field, a, None)`). -/
structure FieldAttrs where
  className : String
  fieldName : String
  source : String
  maxLength : Option Int
  minLength : Option Int
  minValue : Option Int
  maxValue : Option Int
  decimalPlaces : Option Int
  maxDigits : Option Int
  slugField : Option String

/-- The non-recursive payload of one field descriptor: scalar
attributes, the ordered `error_messages` mapping (constraint key →
template), the ordered `validators` list, and, when the field is itself
a serializer, its `BaseSerializer` payload. -/
structure FieldCore where
  attrs : FieldAttrs
  errorMessages : List (String × Template)
  validators : List SValidator
  subSer : Option SubSer

/-- A field descriptor: its own payload plus the `child_relation`
descent (the head of `chain` is the field's `child_relation` payload,
whose own `child_relation` is the next element, and so on; an empty
chain means `getattr(field, 'child_relation', None)` is `None`). -/
structure SField where
  core : FieldCore
  chain : List FieldCore

/-- Scalar attributes of a field. -/
def SField.attrs (f : SField) : FieldAttrs := f.core.attrs

/-- The ordered `error_messages` mapping of a field. -/
def SField.errorMessages (f : SField) : List (String × Template) := f.core.errorMessages

/-- The ordered `validators` list of a field. -/
def SField.validators (f : SField) : List SValidator := f.core.validators

/-- `some sub` when the field is a `BaseSerializer` instance. -/
def SField.subSer (f : SField) : Option SubSer := f.core.subSer

/-- `getattr(field, 'child_relation', None)`. -/
def SField.childRelation (f : SField) : Option SField :=
  match f.chain with
  | [] => none
  | c :: rest => some ⟨c, rest⟩

/-- `type(field).__name__`. -/
def SField.className (f : SField) : String := f.attrs.className

/-- `field.field_name`. -/
def SField.fieldName (f : SField) : String := f.attrs.fieldName

/-- Modelled from the spec: the `field_map` module of the repository is
not under `src/`; per spec section 4.2 it sorts field class names into
type-tag categories (boolean, string, numeric, date, choice, file,
composite, relation) with a type-tag → format table for dates. -/
structure FieldMap where
  boolean : List String
  string : List String
  numeric : List String
  date : List (String × String)
  choice : List String
  file : List String
  composite : List String
  relation : List String

/-- Modelled from the spec: the `settings` module of the repository is
not under `src/`; per spec sections 3 and 4 it provides the static
classification catalog `{fieldType: {constraintKey: code}}`, the global
validator-name catalog, the non-field catalog, the
"invalid overall input type" template (one `data_type` hole, modelled as
a total function of the type name), and the reserved validation-failed
envelope code and message. -/
structure Settings where
  FRIENDLY_FIELD_ERRORS : List (String × List (String × Int))
  FRIENDLY_VALIDATOR_ERRORS : List (String × Int)
  FRIENDLY_NON_FIELD_ERRORS : List (String × Int)
  INVALID_DATA_MESSAGE : String → String
  VALIDATION_FAILED_CODE : Int
  VALIDATION_FAILED_MESSAGE : String

/-- One serializer instance together with its environment: the field-map
and settings modules, `self.fields`, `self.initial_data` (the submitted
mapping; modelled as a dict, so its runtime type name is `"dict"`),
`self.registered_errors`, the `FIELD_VALIDATION_ERRORS` and
`NON_FIELD_ERRORS` class tables, and the `validate_<fieldName>` hook
methods keyed by field name. -/
structure SState where
  field_map : FieldMap
  settings : Settings
  fields : List (String × SField)
  initial_data : List (String × Value)
  registered_errors : List (String × Entry)
  FIELD_VALIDATION_ERRORS : List (String × Int)
  NON_FIELD_ERRORS : List (String × Int)
  validateHooks : List (String × SValidator)

/-- The final envelope of `build_pretty_errors`: `{}` when no errors, or
`{code, message, errors}`. -/
inductive PrettyResult where
  | empty
  | failed (code : Int) (message : String) (errors : List PrettyError)

/-- The composite registration key `'%s_%s_%s' % (message, code, field)`
(`None` stringifies to `"None"`). -/
def compositeKey (message : String) (code : Int) (field_name : Option String) : String :=
  message ++ "_" ++ toString code ++ "_" ++ (match field_name with
    | some f => f
    | none => "None")

/-- `register_error` (mixins.py lines 28-60).  Configuration errors are
Python `ValueError`s, returned as `Except.error` with the source message.
On success the code stores the entry under the composite key and raises
`RestValidationError(key)`; that outcome is modelled as
`.ok (updated state, key)` where `key` is the message carried by the
deliberately raised validation failure. -/
def register_error (st : SState) (error_message : String)
    (field_name : Option String) (error_key : Option String)
    (error_code : Option Int) : Except String (SState × String) :=
  match field_name with
  | none =>
    match error_code with
    | none => .error "For non field error you must provide an error code"
    | some c =>
      let error : Entry := { code := some c, message := error_message, field := none }
      let key := compositeKey error_message c none
      .ok ({ st with registered_errors := alInsert st.registered_errors key error }, key)
  | some fname =>
    match alLookup st.fields fname with
    | none => .error "Incorrect field name"
    | some field_instance =>
      let field_type := field_instance.className
      match error_key, error_code with
      | none, none => .error "You have to provide either error key or error code"
      | _, some c =>
        let error : Entry := { code := some c, field := some fname, message := error_message }
        let key := compositeKey error_message c (some fname)
        .ok ({ st with registered_errors := alInsert st.registered_errors key error }, key)
      | some ekey, none =>
        match alLookup st.settings.FRIENDLY_FIELD_ERRORS field_type with
        | none => .error ("Unknown field type: \"" ++ field_type ++ "\"")
        | some type_map =>
          match alLookup type_map ekey with
          | none => .error ("Unknown error key: \"" ++ ekey ++
              "\" for field type: \"" ++ field_type ++ "\"")
          | some c =>
            let error : Entry := { code := some c, field := some fname, message := error_message }
            let key := compositeKey error_message c (some fname)
            .ok ({ st with registered_errors := alInsert st.registered_errors key error }, key)

/-- `get_field_kwargs` (mixins.py lines 62-110): rebuild the keyword
arguments the field's constraint templates would have been formatted
with, branching on the field class name through the field-map category
lists in source order.  Only the file branch can fail
(`len` of the raw submitted value). -/
def get_field_kwargs (st : SState) (field : SField) (field_data : Value) :
    Except PyErr Kwargs :=
  let field_type := field.className
  let kwargs : Kwargs :=
    [("data_type", .vstr (typeName field_data)),
     ("input_type", .vstr (typeName field_data))]
  if st.field_map.boolean.contains field_type then
    .ok (alInsert kwargs "input" field_data)
  else if st.field_map.string.contains field_type then
    .ok (alInsert (alInsert (alInsert kwargs
      "max_length" (optIntV field.attrs.maxLength))
      "min_length" (optIntV field.attrs.minLength))
      "value" field_data)
  else if st.field_map.numeric.contains field_type then
    let k := alInsert (alInsert (alInsert (alInsert (alInsert kwargs
      "min_value" (optIntV field.attrs.minValue))
      "max_value" (optIntV field.attrs.maxValue))
      "decimal_places" (optIntV field.attrs.decimalPlaces))
      "max_decimal_places" (optIntV field.attrs.decimalPlaces))
      "max_digits" (optIntV field.attrs.maxDigits)
    match field.attrs.maxDigits, field.attrs.decimalPlaces with
    | some max_digits, some decimal_places =>
      .ok (alInsert k "max_whole_digits" (.vint (max_digits - decimal_places)))
    | _, _ => .ok k
  else if (alLookup st.field_map.date field_type).isSome then
    .ok (alInsert kwargs "format"
      (.vstr ((alLookup st.field_map.date field_type).getD "")))
  else if st.field_map.choice.contains field_type then
    .ok (alInsert (alInsert kwargs "input" field_data)
      "input_type" (.vstr (typeName field_data)))
  else if st.field_map.file.contains field_type then
    match pyLen (alLookupD st.initial_data field.attrs.source (.vstr "")) with
    | .error e => .error e
    | .ok n =>
      .ok (alInsert (alInsert kwargs "max_length" (optIntV field.attrs.maxLength))
        "length" (.vint n))
  else if st.field_map.composite.contains field_type then
    .ok (alInsert (alInsert (alInsert kwargs
      "input_type" (.vstr (typeName field_data)))
      "max_length" (optIntV field.attrs.maxLength))
      "min_length" (optIntV field.attrs.minLength))
  else if st.field_map.relation.contains field_type then
    .ok (alInsert (alInsert (alInsert (alInsert (alInsert kwargs
      "pk_value" field_data)
      "data_type" (.vstr (typeName field_data)))
      "input_type" (.vstr (typeName field_data)))
      "slug_name" (optStrV field.attrs.slugField))
      "value" field_data)
  else
    .ok (alInsert kwargs "max_length" (optIntV field.attrs.maxLength))

/-- `true` when an optional value is a Python list
(`isinstance(kwargs.get('value'), list)`). -/
def isVList : Option Value → Bool
  | some (.vlist _) => true
  | _ => false

/-- Loop body of `does_not_exist_many_to_many_handler`: iterate the
candidate identifiers, assigning each into the (shared, mutable) kwargs
dict under `'value'` and testing the formatted template against the
message.  The threaded kwargs dict is returned together with the result,
because the assignments are visible to the caller (`new_kwargs` aliases
`kwargs`). -/
def dneLoop (unformatted : Template) (message : String) :
    Kwargs → List Value → Except PyErr (Bool × Kwargs)
  | kw, [] => .ok (false, kw)
  | kw, v :: rest =>
    let kw' := alInsert kw "value" v
    match format unformatted kw' with
    | .error e => .error e
    | .ok s => if s = message then .ok (true, kw') else dneLoop unformatted message kw' rest

/-- `does_not_exist_many_to_many_handler` (mixins.py lines 112-119).
Looks up the `does_not_exist` template, then iterates
`kwargs['value']` (a `KeyError` if absent, `TypeError` if not a list),
mutating the caller's kwargs dict in place. -/
def does_not_exist_many_to_many_handler (error_messages : List (String × Template))
    (message : String) (kwargs : Kwargs) : Except PyErr (Bool × Kwargs) :=
  match alLookup error_messages "does_not_exist" with
  | none => .error .keyError
  | some unformatted =>
    match alLookup kwargs "value" with
    | none => .error .keyError
    | some (.vlist vs) => dneLoop unformatted message kwargs vs
    | some _ => .error .typeError

/-- Loop of `find_key` (mixins.py lines 125-133): iterate the constraint
keys in declared order, looking each template up in `error_messages`;
run the many-to-many handler first when the key is `does_not_exist` and
the current `'value'` kwarg is a list, and keep the kwargs dict the
handler may have mutated for the rest of the pass. -/
def findKeyLoop (error_messages : List (String × Template)) (message : String) :
    List String → Kwargs → Except PyErr (Option String)
  | [], _ => .ok none
  | key :: rest, kwargs =>
    if key = "does_not_exist" ∧ isVList (alLookup kwargs "value") = true then
      match does_not_exist_many_to_many_handler error_messages message kwargs with
      | .error e => .error e
      | .ok (true, _) => .ok (some key)
      | .ok (false, kw') =>
        match alLookup error_messages key with
        | none => .error .keyError
        | some unformatted =>
          match format unformatted kw' with
          | .error e => .error e
          | .ok s =>
            if s = message then .ok (some key)
            else findKeyLoop error_messages message rest kw'
    else
      match alLookup error_messages key with
      | none => .error .keyError
      | some unformatted =>
        match format unformatted kwargs with
        | .error e => .error e
        | .ok s =>
          if s = message then .ok (some key)
          else findKeyLoop error_messages message rest kwargs

/-- Recursion worker of `find_key`, structurally recursive over the
`child_relation` chain; `findKeyAux st message field_name core chain`
is `find_key` on the field `⟨core, chain⟩`. -/
def findKeyAux (st : SState) (message field_name : String) :
    FieldCore → List FieldCore → Except PyErr (Option String)
  | core, chain =>
    match get_field_kwargs st ⟨core, chain⟩
        (alLookupD st.initial_data field_name .vnone) with
    | .error e => .error e
    | .ok kwargs =>
      match findKeyLoop core.errorMessages message
          (core.errorMessages.map Prod.fst) kwargs with
      | .error e => .error e
      | .ok (some key) => .ok (some key)
      | .ok none =>
        match chain with
        | c :: rest => findKeyAux st message field_name c rest
        | [] => .ok none

/-- `find_key` (mixins.py lines 121-137): reconstruct the kwargs from the
currently submitted value, scan the field's constraint keys, and when
nothing matched recurse into `child_relation` if the field has one
(recursing on `⟨c, rest⟩` is exactly recursing on the field's
`child_relation`). -/
def find_key (st : SState) (field : SField) (message field_name : String) :
    Except PyErr (Option String) :=
  findKeyAux st message field_name field.core field.chain

/-- `_run_validator` (mixins.py lines 139-151): build the argument list
the callable declares (`self.initial_data[field.field_name]` raises
`KeyError` when the field name is absent and the validator wants the
value), run it, and when it raises a validation failure compare the
carried message; `.ok none` is the implicit `None` return when the
validator raises nothing. -/
def run_validator (st : SState) (validator : SValidator) (field : SField)
    (message : String) : Except PyErr (Option Bool) :=
  match (if validator.wantsValue then
      match alLookup st.initial_data field.fieldName with
      | none => Except.error PyErr.keyError
      | some v => Except.ok (some v)
    else Except.ok none) with
  | .error e => .error e
  | .ok arg =>
    match validator.run arg with
    | some err_message => .ok (some (err_message = message))
    | none => .ok none

/-- Loop of `find_validator`: first declared validator whose
re-execution matches the message (`None` and `False` results are both
falsy). -/
def findValidatorLoop (st : SState) (field : SField) (message : String) :
    List SValidator → Except PyErr (Option SValidator)
  | [] => .ok none
  | v :: rest =>
    match run_validator st v field message with
    | .error e => .error e
    | .ok (some true) => .ok (some v)
    | .ok _ => findValidatorLoop st field message rest

/-- `find_validator` (mixins.py lines 153-156). -/
def find_validator (st : SState) (field : SField) (message : String) :
    Except PyErr (Option SValidator) :=
  findValidatorLoop st field message field.validators

/-- The catalog code of a matched validator:
`FIELD_VALIDATION_ERRORS.get(name) or FRIENDLY_VALIDATOR_ERRORS.get(name)`
(structure-local table first, then the global one, with Python `or`
falsiness). -/
def validatorCode (st : SState) (name : String) : Option Int :=
  pyOr (alLookup st.FIELD_VALIDATION_ERRORS name)
    (alLookup st.settings.FRIENDLY_VALIDATOR_ERRORS name)

/-- The fall-through entry of `get_field_error_entry` (mixins.py lines
183-186): `settings.FRIENDLY_FIELD_ERRORS.get(field_type, {}).get(key)`
where `key` is the (possibly falsy) result of `find_key`. -/
def finalFieldEntry (st : SState) (field : SField) (key : Option String)
    (error : String) : Entry :=
  { code :=
      match key with
      | some k => alLookup ((alLookup st.settings.FRIENDLY_FIELD_ERRORS
          field.className).getD []) k
      | none => none
    field := some field.fieldName
    message := error }

/-- `get_field_error_entry` (mixins.py lines 158-186): registered-error
fast path, then the template matcher (`if not key:` -- the empty string
is falsy), then the per-field validators, then the serializer's
`validate_<field_name>` hook, then the catalog fall-through. -/
def get_field_error_entry (st : SState) (error : String) (field : SField) :
    Except PyErr Entry :=
  match alLookup st.registered_errors error with
  | some e => .ok e
  | none =>
    match find_key st field error field.fieldName with
    | .error e => .error e
    | .ok key =>
      if key = none ∨ key = some "" then
        match find_validator st field error with
        | .error e => .error e
        | .ok (some validator) =>
          .ok { code := validatorCode st validator.name
                field := some field.fieldName
                message := error }
        | .ok none =>
          match alLookup st.validateHooks field.fieldName with
          | some hook =>
            match run_validator st hook field error with
            | .error e => .error e
            | .ok (some true) =>
              .ok { code := validatorCode st hook.name
                    field := some field.fieldName
                    message := error }
            | .ok _ => .ok (finalFieldEntry st field key error)
          | none => .ok (finalFieldEntry st field key error)
      else .ok (finalFieldEntry st field key error)

/-- `get_field_error_entries` (mixins.py lines 188-189): classify each
message in order; the first exception propagates. -/
def get_field_error_entries (st : SState) (errors : List String) (field : SField) :
    Except PyErr (List Entry) :=
  match errors with
  | [] => .ok []
  | e :: rest =>
    match get_field_error_entry st e field with
    | .error er => .error er
    | .ok en =>
      match get_field_error_entries st rest field with
      | .error er => .error er
      | .ok ens => .ok (en :: ens)

/-- `get_non_field_error_entry` (mixins.py lines 191-201): registered
fast path, then the invalid-payload-type template (formatted with the
type name of `self.initial_data`, which is a dict here), then the
structure-local and global non-field catalogs. -/
def get_non_field_error_entry (st : SState) (error : String) : Entry :=
  match alLookup st.registered_errors error with
  | some e => e
  | none =>
    if st.settings.INVALID_DATA_MESSAGE "dict" = error then
      { code := alLookup st.settings.FRIENDLY_NON_FIELD_ERRORS "invalid"
        field := none
        message := error }
    else
      { code := pyOr (alLookup st.NON_FIELD_ERRORS error)
          (alLookup st.settings.FRIENDLY_NON_FIELD_ERRORS error)
        field := none
        message := error }

/-- `get_non_field_error_entries` (mixins.py lines 203-204). -/
def get_non_field_error_entries (st : SState) (errors : List String) : List Entry :=
  errors.map (get_non_field_error_entry st)

/-- `get_sub_serializer_errors` (mixins.py lines 213-233): assign the
parent's submitted slice as the sub-serializer's `initial_data`, attempt
`get_subclass` resolution (silently keeping the original on failure),
run the nested validation pass and read its classified errors. -/
def get_sub_serializer_errors (st : SState) (serializer : SubSer)
    (error_type : String) : SubResult :=
  let assigned := alLookupD st.initial_data error_type .vnone
  let resolved :=
    match serializer.getSubclass with
    | none => serializer
    | some none => serializer
    | some (some s) => s
  resolved.errorsOf assigned

/-- The field-name defaulting of `process_sub_serializer_errors`:
`if sub_error['field'] is None: sub_error['field'] = error_type` (only a
leaf entry can carry a `None` field; nested wraps always name a field).
-/
def withParentField (error_type : String) : PrettyError → PrettyError
  | .entry e =>
    match e.field with
    | none => .entry { e with field := some error_type }
    | some _ => .entry e
  | other => other

/-- `process_sub_serializer_errors` (mixins.py lines 235-248): default
missing field names to the parent field name, then append the nested
record's `non_field_errors` (when that key is present) through the
non-field builder. -/
def process_sub_serializer_errors (st : SState) (d : SubErrDict)
    (error_type : String) : List PrettyError :=
  let result := (d.errors?.getD []).map (withParentField error_type)
  match d.non_field_errors? with
  | some msgs => result ++ (get_non_field_error_entries st msgs).map PrettyError.entry
  | none => result

/-- `process_sub_serializer` (mixins.py lines 250-263): wrap a
`many=True` result as `{code: 2902, field, errors: list of lists}` and a
`many=False` result as `{code: 2901, field, errors: flat list}`
(`wrap_nested_errors` dicts are represented by the `PrettyError.nested*`
constructors), appending the wrap to the accumulated pretty list. -/
def process_sub_serializer (st : SState) (pretty : List PrettyError)
    (serializer : SubSer) (error_type : String) : List PrettyError :=
  match get_sub_serializer_errors st serializer error_type with
  | .many ds =>
    pretty ++ [.nestedMany 2902 error_type
      (ds.map (fun d => process_sub_serializer_errors st d error_type))]
  | .single d =>
    pretty ++ [.nestedSingle 2901 error_type (process_sub_serializer_errors st d error_type)]

/-- Loop of `build_pretty_errors` (mixins.py lines 266-283) over the raw
error map in insertion order, threading the accumulated pretty list. -/
def buildLoop (st : SState) :
    List (String × List String) → List PrettyError → Except PyErr (List PrettyError)
  | [], pretty => .ok pretty
  | (error_type, msgs) :: rest, pretty =>
    if error_type = "non_field_errors" then
      buildLoop st rest
        (pretty ++ (get_non_field_error_entries st msgs).map PrettyError.entry)
    else
      match alLookup st.fields error_type with
      | none => .error .keyError
      | some field =>
        match field.subSer, alMem st.initial_data error_type with
        | some sub, true =>
          buildLoop st rest (process_sub_serializer st pretty sub error_type)
        | _, _ =>
          match get_field_error_entries st msgs field with
          | .error e => .error e
          | .ok es => buildLoop st rest (pretty ++ es.map PrettyError.entry)

/-- `build_pretty_errors` (mixins.py lines 265-288): walk the raw error
map and wrap a non-empty result in the validation-failed envelope. -/
def build_pretty_errors (st : SState) (errors : List (String × List String)) :
    Except PyErr PrettyResult :=
  match buildLoop st errors [] with
  | .error e => .error e
  | .ok [] => .ok .empty
  | .ok pretty =>
    .ok (.failed st.settings.VALIDATION_FAILED_CODE
      st.settings.VALIDATION_FAILED_MESSAGE pretty)

deriving instance DecidableEq for Except

/-- Modelled from the spec (section 4.3, for comparison with
`find_key`): "Iterate the field's `{constraintKey: template}` mapping in
its declared order; format each template with the kwargs; the first key
whose formatted template equals `message` exactly is the match". -/
def firstMatchKey (kw : Kwargs) (message : String) :
    List (String × Template) → Option String
  | [] => none
  | (k, t) :: rest =>
    if format t kw = .ok message then some k else firstMatchKey kw message rest

/-- Recursion worker of `find_key_spec` over the child chain. -/
def findKeySpecAux (st : SState) (message field_name : String) :
    FieldCore → List FieldCore → Option String
  | core, chain =>
    match get_field_kwargs st ⟨core, chain⟩
        (alLookupD st.initial_data field_name .vnone) with
    | .error _ => none
    | .ok kwargs =>
      match firstMatchKey kwargs message core.errorMessages with
      | some key => some key
      | none =>
        match chain with
        | c :: rest => findKeySpecAux st message field_name c rest
        | [] => none

/-- Modelled from the spec (section 4.3, for comparison with
`find_key`): the whole template-matcher contract, worded as in the spec
and in claim C3 -- first declared key whose template, formatted with the
kwargs reconstructed from the currently submitted value, equals the
message; recursion over the child relation's constraint mapping when no
key of the field matches; `none` when no key matches anywhere. -/
def find_key_spec (st : SState) (field : SField) (message field_name : String) :
    Option String :=
  findKeySpecAux st message field_name field.core field.chain

/-- Two kwargs dicts bind the same set of placeholder names. -/
def kwKeysLike (kw0 kw : Kwargs) : Prop :=
  ∀ n, (alLookup kw n).isSome = (alLookup kw0 n).isSome

/-- Every template of the mapping formats successfully under `kw`. -/
def templatesOk (ems : List (String × Template)) (kw : Kwargs) : Bool :=
  ems.all (fun p => exIsOk (format p.2 kw))

/-- The keys of an association list are pairwise distinct (always true
for a list that images a Python dict). -/
def keysNodupB {α : Type} : List (String × α) → Bool
  | [] => true
  | (k, _) :: rest => !(decide (k ∈ rest.map Prod.fst)) && keysNodupB rest

/-- Worker of `fieldKwOk` over the child chain. -/
def fieldKwOkAux (st : SState) (field_name : String) :
    FieldCore → List FieldCore → Bool
  | core, chain =>
    match get_field_kwargs st ⟨core, chain⟩
        (alLookupD st.initial_data field_name .vnone) with
    | .error _ => false
    | .ok kw =>
      templatesOk core.errorMessages kw &&
        (match chain with
         | c :: rest => fieldKwOkAux st field_name c rest
         | [] => true)

/-- Template-totality of the matcher for a field and its child chain:
the kwargs reconstruct without error and every declared template
formats successfully under them. -/
def fieldKwOk (st : SState) (field : SField) (field_name : String) : Bool :=
  fieldKwOkAux st field_name field.core field.chain

/-- A validator's speculative re-execution cannot raise `KeyError`:
either it does not want the submitted value, or the field name is
present in `initial_data`. -/
def validatorSafe (st : SState) (field_name : String) (v : SValidator) : Bool :=
  !v.wantsValue || (alLookup st.initial_data field_name).isSome

/-- Worker of `findKeySpecSafe` over the child chain. -/
def findKeySpecSafeAux (st : SState) (field_name : String) :
    FieldCore → List FieldCore → Bool
  | core, chain =>
    match get_field_kwargs st ⟨core, chain⟩
        (alLookupD st.initial_data field_name .vnone) with
    | .error _ => false
    | .ok kw =>
      !(isVList (alLookup kw "value")) && keysNodupB core.errorMessages &&
        templatesOk core.errorMessages kw &&
        (match chain with
         | c :: rest => findKeySpecSafeAux st field_name c rest
         | [] => true)

/-- Safety of the matcher-plus-reclassifier pass of `find_key` as
claim C3 idealises it: additionally the reconstructed `'value'` is not a
list (so the many-to-many handler never mutates the kwargs) and the
constraint keys are distinct, at every level of the child chain. -/
def findKeySpecSafe (st : SState) (field : SField) (field_name : String) : Bool :=
  findKeySpecSafeAux st field_name field.core field.chain


/-- Whole-pipeline safety of one leaf field: its matcher pass is
template-total and every validator the reclassifier may re-run (the
declared ones and the `validate_<fieldName>` hook) can fetch the
submitted value it wants. -/
def fieldSafe (st : SState) (field : SField) : Bool :=
  fieldKwOk st field field.fieldName &&
    field.validators.all (validatorSafe st field.fieldName) &&
    (match alLookup st.validateHooks field.fieldName with
     | some hv => validatorSafe st field.fieldName hv
     | none => true)

/-- Safety of one raw-error-map entry for the flattener: the key is the
non-field bucket or a declared field, and the leaf-classification path
(taken unless the field is a supplied nested serializer) is safe. -/
def entrySafe (st : SState) (p : String × List String) : Bool :=
  p.1 = "non_field_errors" ||
    (match alLookup st.fields p.1 with
     | none => false
     | some field =>
       (field.subSer.isSome && alMem st.initial_data p.1) || fieldSafe st field)

/-- `true` exactly for a leaf `{code, field, message}` entry (not a
nested wrap). -/
def isLeafEntry : PrettyError → Bool
  | .entry _ => true
  | _ => false

/-- Fixture: a representative field-map table (the real `field_map`
module sorts DRF field class names into these categories). -/
def fieldMapW : FieldMap :=
  { boolean := ["BooleanField"]
    string := ["CharField"]
    numeric := ["IntegerField", "DecimalField"]
    date := [("DateField", "date-format")]
    choice := ["ChoiceField"]
    file := ["FileField"]
    composite := ["ListField"]
    relation := ["PrimaryKeyRelatedField", "ManyRelatedField"] }

/-- Fixture: representative settings tables. -/
def settingsW : Settings :=
  { FRIENDLY_FIELD_ERRORS :=
      [("IntegerField", [("invalid", 2001), ("required", 2002)]),
       ("CharField", [("blank", 2101), ("max_length", 2102)])]
    FRIENDLY_VALIDATOR_ERRORS := [("validate_even", 5001), ("myval", 5002)]
    FRIENDLY_NON_FIELD_ERRORS := [("invalid", 1001), ("Some error", 1002)]
    INVALID_DATA_MESSAGE :=
      fun dt => "Invalid data. Expected a dictionary, but got " ++ dt
    VALIDATION_FAILED_CODE := 1000
    VALIDATION_FAILED_MESSAGE := "Validation Failed" }

/-- Fixture: default scalar attributes. -/
def attrsW (cls fname : String) : FieldAttrs :=
  { className := cls, fieldName := fname, source := fname
    maxLength := none, minLength := none, minValue := none, maxValue := none
    decimalPlaces := none, maxDigits := none, slugField := none }

/-- Fixture: an integer field named `age` with plain templates. -/
def intFieldW : SField :=
  { core :=
      { attrs := attrsW "IntegerField" "age"
        errorMessages :=
          [("invalid", [.lit "A valid integer is required."]),
           ("required", [.lit "This field is required."])]
        validators := []
        subSer := none }
    chain := [] }

/-- Fixture: a serializer state with the single field `age`. -/
def stW : SState :=
  { field_map := fieldMapW
    settings := settingsW
    fields := [("age", intFieldW)]
    initial_data := []
    registered_errors := []
    FIELD_VALIDATION_ERRORS := []
    NON_FIELD_ERRORS := []
    validateHooks := [] }


/-- Fixture for the C1 counterexample: a validator that always fails
with the message `boom`. -/
def valC1 : SValidator :=
  { name := "myval", wantsValue := false, wantsField := false
    run := fun _ => some "boom" }

/-- Fixture for the C1 counterexample: an integer field whose
`error_messages` contain an empty-string constraint key whose template
formats to `boom`, plus the validator `valC1` that also matches. -/
def fieldC1 : SField :=
  { core :=
      { attrs := attrsW "IntegerField" "f"
        errorMessages := [("", [.lit "boom"])]
        validators := [valC1]
        subSer := none }
    chain := [] }

/-- Fixture state for the C1 counterexample. -/
def stC1 : SState :=
  { field_map := fieldMapW
    settings := settingsW
    fields := [("f", fieldC1)]
    initial_data := []
    registered_errors := []
    FIELD_VALIDATION_ERRORS := []
    NON_FIELD_ERRORS := []
    validateHooks := [] }

/-- Fixture for the C3 witness: a char field with two plain templates. -/
def charFieldW : SField :=
  { core :=
      { attrs := attrsW "CharField" "name"
        errorMessages :=
          [("blank", [.lit "This field may not be blank."]),
           ("max_length", [.lit "Ensure this field has no more than ",
                           .var "max_length", .lit " characters."])]
        validators := []
        subSer := none }
    chain := [] }

/-- Fixture state for the C3 witness. -/
def stW3 : SState :=
  { field_map := fieldMapW
    settings := settingsW
    fields := [("name", charFieldW)]
    initial_data := [("name", .vstr "x")]
    registered_errors := []
    FIELD_VALIDATION_ERRORS := []
    NON_FIELD_ERRORS := []
    validateHooks := [] }

/-- Fixture for the C3 counterexample: a many-related field whose
`does_not_exist` template matches nothing and whose second template is
just the `value` placeholder. -/
def fieldC3 : SField :=
  { core :=
      { attrs := attrsW "ManyRelatedField" "fld"
        errorMessages := [("does_not_exist", [.lit "nope"]), ("k2", [.var "value"])]
        validators := []
        subSer := none }
    chain := [] }

/-- Fixture state for the C3 counterexample: the submitted value for
`fld` is the list `["a", "b"]`. -/
def stC3 : SState :=
  { field_map := fieldMapW
    settings := settingsW
    fields := [("fld", fieldC3)]
    initial_data := [("fld", .vlist [.vstr "a", .vstr "b"])]
    registered_errors := []
    FIELD_VALIDATION_ERRORS := []
    NON_FIELD_ERRORS := []
    validateHooks := [] }

/-- Fixture: a nested sub-serializer whose recursive pass yields one
record with one leaf error carrying no field name (a nested non-field
error attributed to the parent) plus a nested `non_field_errors`
bucket. -/
def subW4 : SubSer :=
  .mk none (fun _ =>
    .single { errors? := some [.entry { code := some 7, field := none, message := "inner" }]
              non_field_errors? := some ["Some error"] })

/-- Fixture: a serializer-valued field named `profile`. -/
def serFieldW : SField :=
  { core :=
      { attrs := attrsW "ProfileSerializer" "profile"
        errorMessages := [("required", [.lit "This field is required."])]
        validators := []
        subSer := some subW4 }
    chain := [] }

/-- Fixture state with the nested field `profile` supplied in the
payload. -/
def stW4 : SState :=
  { field_map := fieldMapW
    settings := settingsW
    fields := [("profile", serFieldW)]
    initial_data := [("profile", .vdict [])]
    registered_errors := []
    FIELD_VALIDATION_ERRORS := []
    NON_FIELD_ERRORS := []
    validateHooks := [] }

/-- Fixture state for the C6 witness: one leaf char field and a
non-field bucket. -/
def stW6 : SState :=
  { field_map := fieldMapW
    settings := settingsW
    fields := [("name", charFieldW)]
    initial_data := [("name", .vstr "x")]
    registered_errors := []
    FIELD_VALIDATION_ERRORS := []
    NON_FIELD_ERRORS := []
    validateHooks := [] }

/-- Fixture kwargs for the C7 and C10 witnesses: `value` is the list
`["a", "b"]`. -/
def kwargsW7 : Kwargs := [("value", .vlist [.vstr "a", .vstr "b"])]

/-- Fixture templates for the C7 witness. -/
def emsW7 : List (String × Template) :=
  [("does_not_exist", [.lit "Invalid pk ", .var "value"])]

/-- Fixture templates for the C10 witness: the failing `does_not_exist`
template plus a later key whose template is the bare `value`
placeholder. -/
def emsW10 : List (String × Template) :=
  [("does_not_exist", [.lit "nope"]), ("k2", [.var "value"])]

/-- Fixture for the C9 witness: a `DecimalField` with bounds. -/
def decFieldW : SField :=
  { core :=
      { attrs :=
          { className := "DecimalField", fieldName := "price", source := "price"
            maxLength := none, minLength := none
            minValue := some 1, maxValue := some 9
            decimalPlaces := some 2, maxDigits := some 5
            slugField := none }
        errorMessages := []
        validators := []
        subSer := none }
    chain := [] }

/-- Fixture for the C2 witness: the state after registering
`"bad"` on field `age` with explicit code `42`. -/
def stW2' : SState :=
  { stW with registered_errors :=
      [("bad_42_age", { code := some 42, field := some "age", message := "bad" })] }

/-- Fixture: like `fieldC1` (an empty-string constraint key whose
template formats to `boom`) but with no validators, so the empty-key
fall-through of `get_field_error_entry` is reached. -/
def fieldC1b : SField :=
  { core :=
      { attrs := attrsW "IntegerField" "f"
        errorMessages := [("", [.lit "boom"])]
        validators := []
        subSer := none }
    chain := [] }

/-- Fixture state whose field catalog has an entry under the
empty-string key, to show the fall-through looks the empty key up. -/
def stC1b : SState :=
  { field_map := fieldMapW
    settings :=
      { settingsW with FRIENDLY_FIELD_ERRORS :=
          [("IntegerField", [("", 2003), ("invalid", 2001)])] }
    fields := [("f", fieldC1b)]
    initial_data := []
    registered_errors := []
    FIELD_VALIDATION_ERRORS := []
    NON_FIELD_ERRORS := []
    validateHooks := [] }

section AssocLemmas

variable {α : Type}

theorem alLookup_alInsert_self (l : List (String × α)) (k : String) (v : α) :
    alLookup (alInsert l k v) k = some v := by
  induction l with
  | nil => simp [alInsert, alLookup]
  | cons p rest ih =>
    obtain ⟨k', w⟩ := p
    by_cases h : k' = k <;> simp [alInsert, alLookup, h, ih]

theorem alLookup_alInsert_of_ne (l : List (String × α)) (k k' : String) (v : α)
    (h : k' ≠ k) : alLookup (alInsert l k v) k' = alLookup l k' := by
  have h' : ¬(k = k') := fun hh => h hh.symm
  induction l with
  | nil => simp [alInsert, alLookup, h']
  | cons p rest ih =>
    obtain ⟨k0, w⟩ := p
    by_cases h0 : k0 = k
    · subst h0
      simp [alInsert, alLookup, h']
    · simp [alInsert, alLookup, h0, ih]

theorem alLookup_alInsert (l : List (String × α)) (k k' : String) (v : α) :
    alLookup (alInsert l k v) k' = if k' = k then some v else alLookup l k' := by
  by_cases h : k' = k
  · subst h; simp [alLookup_alInsert_self]
  · simp [h, alLookup_alInsert_of_ne l k k' v h]

theorem alInsert_alInsert_self (l : List (String × α)) (k : String) (a b : α) :
    alInsert (alInsert l k a) k b = alInsert l k b := by
  induction l with
  | nil => simp [alInsert]
  | cons p rest ih =>
    obtain ⟨k0, w⟩ := p
    by_cases h0 : k0 = k <;> simp [alInsert, h0, ih]

theorem alLookup_isSome_of_mem {l : List (String × α)} {k : String} {v : α}
    (h : (k, v) ∈ l) : (alLookup l k).isSome = true := by
  induction l with
  | nil => cases h
  | cons p rest ih =>
    obtain ⟨k0, w⟩ := p
    rcases List.mem_cons.mp h with h1 | h2
    · cases h1; simp [alLookup]
    · by_cases h0 : k0 = k <;> simp [alLookup, h0, ih h2]

theorem mem_of_alLookup_eq_some {l : List (String × α)} {k : String} {v : α}
    (h : alLookup l k = some v) : (k, v) ∈ l := by
  induction l with
  | nil => simp [alLookup] at h
  | cons p rest ih =>
    obtain ⟨k0, w⟩ := p
    by_cases h0 : k0 = k
    · subst h0
      simp [alLookup] at h
      simp [h]
    · simp [alLookup, h0] at h
      exact List.mem_cons_of_mem _ (ih h)

end AssocLemmas

section FormatLemmas

theorem kwKeysLike_refl (kw : Kwargs) : kwKeysLike kw kw := fun _ => rfl

theorem kwKeysLike_alInsert (kw0 kw : Kwargs) (k : String) (v : Value)
    (hmem : (alLookup kw0 k).isSome = true) (h : kwKeysLike kw0 kw) :
    kwKeysLike kw0 (alInsert kw k v) := by
  intro n
  rw [alLookup_alInsert]
  by_cases hn : n = k
  · subst hn
    simp [hmem]
  · simp [hn, h n]

theorem format_isOk_congr (t : Template) (kw0 kw : Kwargs)
    (h : kwKeysLike kw0 kw) : exIsOk (format t kw) = exIsOk (format t kw0) := by
  induction t with
  | nil => rfl
  | cons p rest ih =>
    cases p with
    | lit s =>
      simp only [format]
      cases hr : format rest kw <;> cases hr0 : format rest kw0 <;>
        first
        | rfl
        | (exfalso
           have := ih
           simp [hr, hr0, exIsOk] at this)
    | var n =>
      have hiso := h n
      simp only [format]
      cases hkw : alLookup kw n <;> cases hkw0 : alLookup kw0 n
      · rfl
      · simp [hkw, hkw0] at hiso
      · simp [hkw, hkw0] at hiso
      · cases hr : format rest kw <;> cases hr0 : format rest kw0 <;>
          first
          | rfl
          | (exfalso
             have := ih
             simp [hr, hr0, exIsOk] at this)

end FormatLemmas

section MatcherLemmas

theorem alLookup_isSome_of_mem_keys {α : Type} {l : List (String × α)} {k : String}
    (h : k ∈ l.map Prod.fst) : (alLookup l k).isSome = true := by
  induction l with
  | nil => cases h
  | cons p rest ih =>
    obtain ⟨k0, v0⟩ := p
    rcases List.mem_cons.mp h with h1 | h2
    · simp at h1
      simp [alLookup, h1]
    · by_cases h0 : k0 = k <;> simp [alLookup, h0, ih h2]

theorem format_isOk_of_templatesOk {ems : List (String × Template)} {kw : Kwargs}
    {k : String} {t : Template} (hall : templatesOk ems kw = true)
    (hl : alLookup ems k = some t) : exIsOk (format t kw) = true := by
  have hmem := mem_of_alLookup_eq_some hl
  exact List.all_eq_true.mp hall _ hmem

theorem kwKeysLike_alInsert_both (kw : Kwargs) (k : String) (a b : Value) :
    kwKeysLike (alInsert kw k a) (alInsert kw k b) := by
  intro n
  rw [alLookup_alInsert, alLookup_alInsert]
  by_cases hn : n = k <;> simp [hn]

theorem dneLoop_ok (t : Template) (m : String) (kw0 : Kwargs)
    (hv0 : (alLookup kw0 "value").isSome = true)
    (hf0 : exIsOk (format t kw0) = true) :
    ∀ (vs : List Value) (kw : Kwargs), kwKeysLike kw0 kw →
      ∃ b kw', dneLoop t m kw vs = .ok (b, kw') ∧ kwKeysLike kw0 kw' := by
  intro vs
  induction vs with
  | nil => exact fun kw hk => ⟨false, kw, rfl, hk⟩
  | cons v rest ih =>
    intro kw hk
    have hk1 : kwKeysLike kw0 (alInsert kw "value" v) :=
      kwKeysLike_alInsert kw0 kw "value" v hv0 hk
    have hfmt : exIsOk (format t (alInsert kw "value" v)) = true := by
      rw [format_isOk_congr t kw0 _ hk1]; exact hf0
    simp only [dneLoop]
    cases hft : format t (alInsert kw "value" v) with
    | error e => rw [hft] at hfmt; simp [exIsOk] at hfmt
    | ok s =>
      by_cases hs : s = m
      · exact ⟨true, alInsert kw "value" v, by simp [hs], hk1⟩
      · obtain ⟨b, kw', hb, hkb⟩ := ih (alInsert kw "value" v) hk1
        exact ⟨b, kw', by simp [hs, hb], hkb⟩

theorem findKeyLoop_isOk (ems : List (String × Template)) (m : String) (kw0 : Kwargs)
    (hall : templatesOk ems kw0 = true) :
    ∀ (keys : List String) (kw : Kwargs),
      (∀ k ∈ keys, (alLookup ems k).isSome = true) →
      kwKeysLike kw0 kw →
      exIsOk (findKeyLoop ems m keys kw) = true := by
  intro keys
  induction keys with
  | nil => intro kw _ _; rfl
  | cons key rest ih =>
    intro kw hkeys hk
    have hkey : (alLookup ems key).isSome = true := hkeys key (List.mem_cons_self _ _)
    obtain ⟨t, ht⟩ := Option.isSome_iff_exists.mp hkey
    have hrest : ∀ k ∈ rest, (alLookup ems k).isSome = true :=
      fun k hkk => hkeys k (List.mem_cons_of_mem _ hkk)
    have hft0 : exIsOk (format t kw0) = true := format_isOk_of_templatesOk hall ht
    simp only [findKeyLoop]
    by_cases hguard : key = "does_not_exist" ∧ isVList (alLookup kw "value") = true
    · rw [if_pos hguard]
      obtain ⟨hkdne, hvl⟩ := hguard
      subst hkdne
      cases hv : alLookup kw "value" with
      | none => rw [hv] at hvl; simp [isVList] at hvl
      | some v =>
        cases v with
        | vlist vs =>
          have hv0 : (alLookup kw0 "value").isSome = true := by
            rw [← hk "value", hv]; rfl
          simp only [does_not_exist_many_to_many_handler, ht, hv]
          obtain ⟨b, kw', hb, hkb⟩ := dneLoop_ok t m kw0 hv0 hft0 vs kw hk
          rw [hb]
          cases b with
          | true => rfl
          | false =>
            have hfmt' : exIsOk (format t kw') = true := by
              rw [format_isOk_congr t kw0 _ hkb]; exact hft0
            cases hft' : format t kw' with
            | error e => rw [hft'] at hfmt'; simp [exIsOk] at hfmt'
            | ok s =>
              by_cases hs : s = m
              · simp [hft', hs, exIsOk]
              · have hih := ih kw' hrest hkb
                simp [hft', hs, hih]
        | vnone => rw [hv] at hvl; simp [isVList] at hvl
        | vbool b => rw [hv] at hvl; simp [isVList] at hvl
        | vint n => rw [hv] at hvl; simp [isVList] at hvl
        | vstr s => rw [hv] at hvl; simp [isVList] at hvl
        | vdict d => rw [hv] at hvl; simp [isVList] at hvl
    · rw [if_neg hguard, ht]
      have hfmt : exIsOk (format t kw) = true := by
        rw [format_isOk_congr t kw0 _ hk]; exact hft0
      cases hft : format t kw with
      | error e => rw [hft] at hfmt; simp [exIsOk] at hfmt
      | ok s =>
        by_cases hs : s = m
        · simp [hft, hs, exIsOk]
        · have hih := ih kw hrest hk
          simp [hft, hs, hih]

theorem findKeyAux_isOk (st : SState) (m fn : String) :
    ∀ (chain : List FieldCore) (core : FieldCore),
      fieldKwOkAux st fn core chain = true →
      exIsOk (findKeyAux st m fn core chain) = true := by
  intro chain
  induction chain with
  | nil =>
    intro core h
    simp only [fieldKwOkAux] at h
    simp only [findKeyAux]
    cases hkw : get_field_kwargs st ⟨core, []⟩
        (alLookupD st.initial_data fn .vnone) with
    | error e => rw [hkw] at h; simp at h
    | ok kw =>
      rw [hkw] at h
      simp only [Bool.and_eq_true] at h
      have hloop := findKeyLoop_isOk core.errorMessages m kw h.1
        (core.errorMessages.map Prod.fst) kw
        (fun k hkk => alLookup_isSome_of_mem_keys hkk) (kwKeysLike_refl kw)
      cases hl : findKeyLoop core.errorMessages m (core.errorMessages.map Prod.fst) kw with
      | error e => rw [hl] at hloop; simp [exIsOk] at hloop
      | ok r => cases r with
        | some key => simp [hl, exIsOk]
        | none => simp [hl, exIsOk]
  | cons c rest ih =>
    intro core h
    simp only [fieldKwOkAux] at h
    simp only [findKeyAux]
    cases hkw : get_field_kwargs st ⟨core, c :: rest⟩
        (alLookupD st.initial_data fn .vnone) with
    | error e => rw [hkw] at h; simp at h
    | ok kw =>
      rw [hkw] at h
      simp only [Bool.and_eq_true] at h
      obtain ⟨hall, hchild⟩ := h
      have hloop := findKeyLoop_isOk core.errorMessages m kw hall
        (core.errorMessages.map Prod.fst) kw
        (fun k hkk => alLookup_isSome_of_mem_keys hkk) (kwKeysLike_refl kw)
      cases hl : findKeyLoop core.errorMessages m (core.errorMessages.map Prod.fst) kw with
      | error e => rw [hl] at hloop; simp [exIsOk] at hloop
      | ok r => cases r with
        | some key => simp [hl, exIsOk]
        | none => simp [hl]; exact ih c hchild

theorem find_key_isOk (st : SState) (field : SField) (m fn : String)
    (h : fieldKwOk st field fn = true) : exIsOk (find_key st field m fn) = true :=
  findKeyAux_isOk st m fn field.chain field.core h

theorem alLookup_eq_of_nodup_mem {α : Type} :
    ∀ {l : List (String × α)} {k : String} {v : α}, keysNodupB l = true →
      (k, v) ∈ l → alLookup l k = some v := by
  intro l
  induction l with
  | nil => intro k v _ hm; cases hm
  | cons p rest ih =>
    intro k v hnd hm
    obtain ⟨k0, v0⟩ := p
    simp only [keysNodupB, Bool.and_eq_true, Bool.not_eq_true'] at hnd
    rcases List.mem_cons.mp hm with h1 | h2
    · cases h1
      simp [alLookup]
    · by_cases h0 : k0 = k
      · subst h0
        exfalso
        have hmm : k0 ∈ rest.map Prod.fst := List.mem_map_of_mem Prod.fst h2
        exact absurd hmm (of_decide_eq_false hnd.1)
      · simp [alLookup, h0]
        exact ih hnd.2 h2

theorem findKeyLoop_eq_firstMatch (ems : List (String × Template)) (m : String)
    (kw : Kwargs) (hnd : keysNodupB ems = true)
    (hnl : isVList (alLookup kw "value") = false)
    (hall : templatesOk ems kw = true) :
    ∀ (suffix : List (String × Template)), (∀ p ∈ suffix, p ∈ ems) →
      findKeyLoop ems m (suffix.map Prod.fst) kw = .ok (firstMatchKey kw m suffix) := by
  intro suffix
  induction suffix with
  | nil => intro _; rfl
  | cons p rest ih =>
    intro hsub
    obtain ⟨k, t⟩ := p
    have hmem : (k, t) ∈ ems := hsub _ (List.mem_cons_self _ _)
    have ht : alLookup ems k = some t := alLookup_eq_of_nodup_mem hnd hmem
    have hfmt : exIsOk (format t kw) = true :=
      List.all_eq_true.mp hall _ hmem
    have hguard : ¬(k = "does_not_exist" ∧ isVList (alLookup kw "value") = true) := by
      intro hg
      rw [hnl] at hg
      exact Bool.false_ne_true hg.2
    simp only [List.map, findKeyLoop, firstMatchKey]
    rw [if_neg hguard, ht]
    cases hft : format t kw with
    | error e => rw [hft] at hfmt; simp [exIsOk] at hfmt
    | ok s =>
      by_cases hs : s = m
      · subst hs
        simp [hft]
      · have hrec := ih (fun p hp => hsub p (List.mem_cons_of_mem _ hp))
        simp [hft, hs, hrec]

theorem findKeyAux_eq_spec (st : SState) (m fn : String) :
    ∀ (chain : List FieldCore) (core : FieldCore),
      findKeySpecSafeAux st fn core chain = true →
      findKeyAux st m fn core chain = .ok (findKeySpecAux st m fn core chain) := by
  intro chain
  induction chain with
  | nil =>
    intro core h
    simp only [findKeySpecSafeAux] at h
    simp only [findKeyAux, findKeySpecAux]
    cases hkw : get_field_kwargs st ⟨core, []⟩
        (alLookupD st.initial_data fn .vnone) with
    | error e => rw [hkw] at h; simp at h
    | ok kw =>
      rw [hkw] at h
      simp only [Bool.and_eq_true, Bool.not_eq_true'] at h
      have hloop := findKeyLoop_eq_firstMatch core.errorMessages m kw
        h.1.1.2 h.1.1.1 h.1.2 core.errorMessages (fun p hp => hp)
      cases hfm : firstMatchKey kw m core.errorMessages with
      | some key => simp [hloop, hfm]
      | none => simp [hloop, hfm]
  | cons c rest ih =>
    intro core h
    simp only [findKeySpecSafeAux] at h
    simp only [findKeyAux, findKeySpecAux]
    cases hkw : get_field_kwargs st ⟨core, c :: rest⟩
        (alLookupD st.initial_data fn .vnone) with
    | error e => rw [hkw] at h; simp at h
    | ok kw =>
      rw [hkw] at h
      simp only [Bool.and_eq_true, Bool.not_eq_true'] at h
      have hloop := findKeyLoop_eq_firstMatch core.errorMessages m kw
        h.1.1.2 h.1.1.1 h.1.2 core.errorMessages (fun p hp => hp)
      cases hfm : firstMatchKey kw m core.errorMessages with
      | some key => simp [hloop, hfm]
      | none =>
        have hrec := ih c h.2
        simp [hloop, hfm, hrec]

theorem find_key_eq_spec (st : SState) (field : SField) (m fn : String)
    (h : findKeySpecSafe st field fn = true) :
    find_key st field m fn = .ok (find_key_spec st field m fn) :=
  findKeyAux_eq_spec st m fn field.chain field.core h

theorem dneLoop_true_of_exists (t : Template) (m : String) :
    ∀ (vs : List Value) (kw : Kwargs),
      (∃ v ∈ vs, format t (alInsert kw "value" v) = .ok m) →
      ∃ kw', dneLoop t m kw vs = .ok (true, kw') := by
  intro vs
  induction vs with
  | nil => intro kw h; obtain ⟨v, hv, _⟩ := h; cases hv
  | cons v rest ih =>
    intro kw h
    obtain ⟨u, hu, hform⟩ := h
    have hok : exIsOk (format t (alInsert kw "value" v)) = true := by
      rw [format_isOk_congr t (alInsert kw "value" u) (alInsert kw "value" v)
        (kwKeysLike_alInsert_both kw "value" u v)]
      rw [hform]
      rfl
    cases hft : format t (alInsert kw "value" v) with
    | error e => rw [hft] at hok; simp [exIsOk] at hok
    | ok s =>
      by_cases hs : s = m
      · exact ⟨alInsert kw "value" v, by simp [dneLoop, hft, hs]⟩
      · rcases List.mem_cons.mp hu with h1 | h2
        · subst h1
          rw [hform] at hft
          cases hft
          exact absurd rfl hs
        · have hrest : ∃ w ∈ rest,
              format t (alInsert (alInsert kw "value" v) "value" w) = .ok m := by
            refine ⟨u, h2, ?_⟩
            rw [alInsert_alInsert_self]
            exact hform
          obtain ⟨kw', hkw'⟩ := ih (alInsert kw "value" v) hrest
          exact ⟨kw', by simp [dneLoop, hft, hs, hkw']⟩

theorem dneLoop_false_last (t : Template) (m : String) :
    ∀ (vs : List Value) (kw kw2 : Kwargs),
      dneLoop t m kw vs = .ok (false, kw2) → vs ≠ [] →
      ∃ v, vs.getLast? = some v ∧ kw2 = alInsert kw "value" v := by
  intro vs
  induction vs with
  | nil => intro kw kw2 _ hne; exact absurd rfl hne
  | cons v rest ih =>
    intro kw kw2 h _
    simp only [dneLoop] at h
    cases hft : format t (alInsert kw "value" v) with
    | error e => rw [hft] at h; cases h
    | ok s =>
      rw [hft] at h
      by_cases hs : s = m
      · simp [hs] at h
      · simp only [hs, if_false] at h
        cases rest with
        | nil =>
          simp only [dneLoop] at h
          cases h
          exact ⟨v, rfl, rfl⟩
        | cons w tail =>
          obtain ⟨u, hu, hkw2⟩ := ih (alInsert kw "value" v) kw2 h (by simp)
          refine ⟨u, ?_, ?_⟩
          · rw [List.getLast?_cons_cons]
            exact hu
          · rw [hkw2, alInsert_alInsert_self]

end MatcherLemmas

section TotalityLemmas

theorem run_validator_isOk (st : SState) (v : SValidator) (field : SField)
    (m : String) (h : validatorSafe st field.fieldName v = true) :
    exIsOk (run_validator st v field m) = true := by
  simp only [validatorSafe, Bool.or_eq_true, Bool.not_eq_true'] at h
  unfold run_validator
  cases hw : v.wantsValue with
  | false => cases hvr : v.run none <;> simp [hw, hvr, exIsOk]
  | true =>
    rw [hw] at h
    cases hl : alLookup st.initial_data field.fieldName with
    | none => rw [hl] at h; simp at h
    | some x => cases hvr : v.run (some x) <;> simp [hw, hl, hvr, exIsOk]

theorem findValidatorLoop_isOk (st : SState) (field : SField) (m : String) :
    ∀ (vs : List SValidator), vs.all (validatorSafe st field.fieldName) = true →
      exIsOk (findValidatorLoop st field m vs) = true := by
  intro vs
  induction vs with
  | nil => intro _; rfl
  | cons v rest ih =>
    intro h
    simp only [List.all_cons, Bool.and_eq_true] at h
    have hv := run_validator_isOk st v field m h.1
    have hrec := ih h.2
    simp only [findValidatorLoop]
    cases hr : run_validator st v field m with
    | error e => rw [hr] at hv; simp [exIsOk] at hv
    | ok b =>
      cases b with
      | some bb =>
        cases bb with
        | true => rfl
        | false => exact hrec
      | none => exact hrec

theorem get_field_error_entry_isOk (st : SState) (e : String) (field : SField)
    (h : fieldSafe st field = true) :
    exIsOk (get_field_error_entry st e field) = true := by
  simp only [fieldSafe, Bool.and_eq_true] at h
  obtain ⟨⟨hkw, hvals⟩, hhook⟩ := h
  simp only [get_field_error_entry]
  cases hreg : alLookup st.registered_errors e with
  | some en => simp [exIsOk]
  | none =>
    have hfk := find_key_isOk st field e field.fieldName hkw
    cases hk : find_key st field e field.fieldName with
    | error er => rw [hk] at hfk; simp [exIsOk] at hfk
    | ok key =>
      by_cases hfalsy : key = none ∨ key = some ""
      · have hfv := findValidatorLoop_isOk st field e field.validators hvals
        cases hv : findValidatorLoop st field e field.validators with
        | error er => rw [hv] at hfv; simp [exIsOk] at hfv
        | ok r =>
          cases r with
          | some validator => simp [find_validator, hv, hfalsy, exIsOk]
          | none =>
            cases hh : alLookup st.validateHooks field.fieldName with
            | none => simp [find_validator, hv, hfalsy, hh, exIsOk]
            | some hook =>
              rw [hh] at hhook
              have hrv := run_validator_isOk st hook field e hhook
              cases hr : run_validator st hook field e with
              | error er => rw [hr] at hrv; simp [exIsOk] at hrv
              | ok b =>
                cases b with
                | some bb =>
                  cases bb <;> simp [find_validator, hv, hfalsy, hh, hr, exIsOk]
                | none => simp [find_validator, hv, hfalsy, hh, hr, exIsOk]
      · simp [hfalsy, exIsOk]

theorem get_field_error_entries_isOk (st : SState) (field : SField)
    (h : fieldSafe st field = true) :
    ∀ (msgs : List String), exIsOk (get_field_error_entries st msgs field) = true := by
  intro msgs
  induction msgs with
  | nil => rfl
  | cons e rest ih =>
    have he := get_field_error_entry_isOk st e field h
    simp only [get_field_error_entries]
    cases hr : get_field_error_entry st e field with
    | error er => rw [hr] at he; simp [exIsOk] at he
    | ok en =>
      cases hrest : get_field_error_entries st rest field with
      | error er => rw [hrest] at ih; simp [exIsOk] at ih
      | ok ens => rfl

theorem buildLoop_isOk (st : SState) :
    ∀ (errors : List (String × List String)) (pretty : List PrettyError),
      errors.all (entrySafe st) = true →
      exIsOk (buildLoop st errors pretty) = true := by
  intro errors
  induction errors with
  | nil => intro _ _; rfl
  | cons p rest ih =>
    intro pretty h
    simp only [List.all_cons, Bool.and_eq_true] at h
    obtain ⟨hp, hrest⟩ := h
    obtain ⟨error_type, msgs⟩ := p
    simp only [entrySafe, Bool.or_eq_true, decide_eq_true_eq] at hp
    simp only [buildLoop]
    by_cases hnf : error_type = "non_field_errors"
    · have hrec := ih
        (pretty ++ (get_non_field_error_entries st msgs).map PrettyError.entry) hrest
      simp [hnf, hrec]
    · rcases hp with hp | hp
      · exact absurd hp hnf
      · cases hf : alLookup st.fields error_type with
        | none => rw [hf] at hp; simp at hp
        | some field =>
          rw [hf] at hp
          simp only [Bool.or_eq_true, Bool.and_eq_true] at hp
          cases hss : field.subSer with
          | some sub =>
            cases hmem : alMem st.initial_data error_type with
            | true =>
              have hrec := ih (process_sub_serializer st pretty sub error_type) hrest
              simp [hnf, hf, hss, hmem, hrec]
            | false =>
              have hsafe : fieldSafe st field = true := by
                rcases hp with ⟨_, hm⟩ | hp2
                · rw [hmem] at hm; cases hm
                · exact hp2
              have hent := get_field_error_entries_isOk st field hsafe msgs
              cases he : get_field_error_entries st msgs field with
              | error er => rw [he] at hent; simp [exIsOk] at hent
              | ok es =>
                have hrec := ih (pretty ++ es.map PrettyError.entry) hrest
                simp [hnf, hf, hss, hmem, he, hrec]
          | none =>
            have hsafe : fieldSafe st field = true := by
              rcases hp with ⟨hiss, _⟩ | hp2
              · rw [hss] at hiss; simp [Option.isSome] at hiss
              · exact hp2
            have hent := get_field_error_entries_isOk st field hsafe msgs
            cases he : get_field_error_entries st msgs field with
            | error er => rw [he] at hent; simp [exIsOk] at hent
            | ok es =>
              have hrec := ih (pretty ++ es.map PrettyError.entry) hrest
              simp [hnf, hf, hss, he, hrec]

theorem build_pretty_errors_isOk (st : SState)
    (errors : List (String × List String))
    (h : errors.all (entrySafe st) = true) :
    exIsOk (build_pretty_errors st errors) = true := by
  have hl := buildLoop_isOk st errors [] h
  simp only [build_pretty_errors]
  cases hb : buildLoop st errors [] with
  | error e => rw [hb] at hl; simp [exIsOk] at hl
  | ok pretty => cases pretty <;> rfl

end TotalityLemmas

/-- Helper for C2: once an entry sits in `registered_errors` under `key`,
both entry builders return it verbatim for the raw message `key`,
whatever the field descriptor is (no matcher or validator runs are
consulted). -/
theorem registered_entry_bypass (st : SState) (key : String) (e : Entry)
    (h : alLookup st.registered_errors key = some e) :
    (∀ field, get_field_error_entry st key field = .ok e) ∧
    get_non_field_error_entry st key = e := by
  constructor
  · intro field
    simp [get_field_error_entry, h]
  · simp [get_non_field_error_entry, h]

/-- C2: a successful `register_error(message, fieldName, errorKey/errorCode)`
stores, under the composite key built from the message, the resolved code
and the field name, the entry `{code, field, message}`; the validation
failure it raises carries exactly that composite key (the `String`
component of the `.ok` result); and classifying a raw message equal to
that key afterwards -- through `get_field_error_entry` with any field
descriptor whatsoever, or through `get_non_field_error_entry` -- returns
the stored entry verbatim, with no template or validator machinery
consulted. -/
theorem C2_register_then_bypass (st : SState) (msg : String) (fn : Option String)
    (ek : Option String) (ec : Option Int) (st' : SState) (key : String)
    (h : register_error st msg fn ek ec = .ok (st', key)) :
    ∃ c, key = compositeKey msg c fn ∧
      alLookup st'.registered_errors key =
        some { code := some c, field := fn, message := msg } ∧
      (∀ field, get_field_error_entry st' key field =
        .ok { code := some c, field := fn, message := msg }) ∧
      get_non_field_error_entry st' key = { code := some c, field := fn, message := msg } := by
  unfold register_error at h
  split at h
  · -- fn is none
    split at h
    · cases h
    · cases h
      rename_i c
      have hl := alLookup_alInsert_self st.registered_errors
        (compositeKey msg c none)
        (⟨some c, none, msg⟩ : Entry)
      exact ⟨c, rfl, hl, (registered_entry_bypass _ _ _ hl).1,
        (registered_entry_bypass _ _ _ hl).2⟩
  · -- fn is some fname
    rename_i fname
    split at h
    · cases h
    · split at h
      · cases h
      · cases h
        rename_i c
        have hl := alLookup_alInsert_self st.registered_errors
          (compositeKey msg c (some fname))
          (⟨some c, some fname, msg⟩ : Entry)
        exact ⟨c, rfl, hl, (registered_entry_bypass _ _ _ hl).1,
          (registered_entry_bypass _ _ _ hl).2⟩
      · dsimp only [] at h
        split at h
        · cases h
        · split at h
          · cases h
          · cases h
            rename_i c hceq
            have hl := alLookup_alInsert_self st.registered_errors
              (compositeKey msg c (some fname))
              (⟨some c, some fname, msg⟩ : Entry)
            exact ⟨c, rfl, hl, (registered_entry_bypass _ _ _ hl).1,
              (registered_entry_bypass _ _ _ hl).2⟩

/-- C9: for a numeric-typed field (numeric by the field-map chain: not
boolean, not string, in the numeric category) the reconstructed kwargs
carry `min_value`, `max_value`, `decimal_places`, `max_decimal_places`
and `max_digits` straight from the field's attributes, `data_type` and
`input_type` are the runtime type name of the submitted value, and the
derived `max_whole_digits = max_digits - decimal_places` entry is
present exactly when both `max_digits` and `decimal_places` are known. -/
theorem C9_numeric_kwargs (st : SState) (field : SField) (v : Value)
    (hb : st.field_map.boolean.contains field.className = false)
    (hs : st.field_map.string.contains field.className = false)
    (hn : st.field_map.numeric.contains field.className = true) :
    ∃ kw, get_field_kwargs st field v = .ok kw ∧
      alLookup kw "min_value" = some (optIntV field.attrs.minValue) ∧
      alLookup kw "max_value" = some (optIntV field.attrs.maxValue) ∧
      alLookup kw "decimal_places" = some (optIntV field.attrs.decimalPlaces) ∧
      alLookup kw "max_decimal_places" = some (optIntV field.attrs.decimalPlaces) ∧
      alLookup kw "max_digits" = some (optIntV field.attrs.maxDigits) ∧
      alLookup kw "data_type" = some (.vstr (typeName v)) ∧
      alLookup kw "input_type" = some (.vstr (typeName v)) ∧
      (∀ md dp, field.attrs.maxDigits = some md →
        field.attrs.decimalPlaces = some dp →
        alLookup kw "max_whole_digits" = some (.vint (md - dp))) ∧
      ((field.attrs.maxDigits = none ∨ field.attrs.decimalPlaces = none) →
        alLookup kw "max_whole_digits" = none) := by
  unfold get_field_kwargs
  dsimp only []
  rw [hb, hs, hn]
  simp only [Bool.false_eq_true, eq_self_iff_true, if_false, if_true]
  cases hmd : field.attrs.maxDigits with
  | some md =>
    cases hdp : field.attrs.decimalPlaces with
    | some dp =>
      refine ⟨_, rfl, ?_, ?_, ?_, ?_, ?_, ?_, ?_, ?_, ?_⟩
      · simp +decide [alLookup_alInsert, alLookup]
      · simp +decide [alLookup_alInsert, alLookup]
      · simp +decide [alLookup_alInsert, alLookup, hdp]
      · simp +decide [alLookup_alInsert, alLookup, hdp]
      · simp +decide [alLookup_alInsert, alLookup, hmd]
      · simp +decide [alLookup_alInsert, alLookup]
      · simp +decide [alLookup_alInsert, alLookup]
      · intro md' dp' hmd' hdp'
        cases hmd'
        cases hdp'
        simp +decide [alLookup_alInsert, alLookup]
      · intro hcase
        rcases hcase with hc | hc
        · cases hc
        · cases hc
    | none =>
      refine ⟨_, rfl, ?_, ?_, ?_, ?_, ?_, ?_, ?_, ?_, ?_⟩
      · simp +decide [alLookup_alInsert, alLookup]
      · simp +decide [alLookup_alInsert, alLookup]
      · simp +decide [alLookup_alInsert, alLookup, hdp]
      · simp +decide [alLookup_alInsert, alLookup, hdp]
      · simp +decide [alLookup_alInsert, alLookup, hmd]
      · simp +decide [alLookup_alInsert, alLookup]
      · simp +decide [alLookup_alInsert, alLookup]
      · intro md' dp' hmd' hdp'
        cases hdp'
      · intro hcase
        simp +decide [alLookup_alInsert, alLookup]
  | none =>
    refine ⟨_, rfl, ?_, ?_, ?_, ?_, ?_, ?_, ?_, ?_, ?_⟩
    · simp +decide [alLookup_alInsert, alLookup]
    · simp +decide [alLookup_alInsert, alLookup]
    · simp +decide [alLookup_alInsert, alLookup]
    · simp +decide [alLookup_alInsert, alLookup]
    · simp +decide [alLookup_alInsert, alLookup, hmd]
    · simp +decide [alLookup_alInsert, alLookup]
    · simp +decide [alLookup_alInsert, alLookup]
    · intro md' dp' hmd' hdp'
      cases hmd'
    · intro hcase
      simp +decide [alLookup_alInsert, alLookup]

/-- C1 (amended): resolution priority of `get_field_error_entry`.  If the
message equals a stored registered-error composite key, the stored entry
is returned.  Otherwise, if the template matcher finds a NON-EMPTY
constraint key `k`, the entry is `{code: catalog[fieldType][k] (possibly
null, reported as-is), field, message}`.  Otherwise -- the matcher found
no key at all or found the empty-string key, which `if not key:` treats
as falsy -- a matching declared validator wins next with its
local-then-global catalog code; then the `validate_<fieldName>` hook;
and if neither matches, the fall-through entry is still emitted with the
falsy key looked up in the catalog: code null when no key was found, and
`catalog[fieldType][""]` when the empty key was found (so the
no-key fall-through carries the claim's `{code: null, field, message}`).
The original message and field name are preserved in every emitted
entry.  (The code departs from the claim as frozen only in the
empty-string-key dispatch -- see the counterexample.) -/
theorem C1_field_entry_cascade (st : SState) (m : String) (field : SField) :
    (∀ e, alLookup st.registered_errors m = some e →
      get_field_error_entry st m field = .ok e) ∧
    (∀ k, alLookup st.registered_errors m = none →
      find_key st field m field.fieldName = .ok (some k) → k ≠ "" →
      get_field_error_entry st m field = .ok
        { code := alLookup
            ((alLookup st.settings.FRIENDLY_FIELD_ERRORS field.className).getD []) k
          field := some field.fieldName
          message := m }) ∧
    (∀ key0 v, alLookup st.registered_errors m = none →
      find_key st field m field.fieldName = .ok key0 →
      (key0 = none ∨ key0 = some "") →
      find_validator st field m = .ok (some v) →
      get_field_error_entry st m field = .ok
        { code := validatorCode st v.name
          field := some field.fieldName
          message := m }) ∧
    (∀ key0 hv, alLookup st.registered_errors m = none →
      find_key st field m field.fieldName = .ok key0 →
      (key0 = none ∨ key0 = some "") →
      find_validator st field m = .ok none →
      alLookup st.validateHooks field.fieldName = some hv →
      run_validator st hv field m = .ok (some true) →
      get_field_error_entry st m field = .ok
        { code := validatorCode st hv.name
          field := some field.fieldName
          message := m }) ∧
    (∀ key0, alLookup st.registered_errors m = none →
      find_key st field m field.fieldName = .ok key0 →
      (key0 = none ∨ key0 = some "") →
      find_validator st field m = .ok none →
      (alLookup st.validateHooks field.fieldName = none ∨
        (∃ hv, alLookup st.validateHooks field.fieldName = some hv ∧
          (run_validator st hv field m = .ok (some false) ∨
           run_validator st hv field m = .ok none))) →
      get_field_error_entry st m field = .ok
        { code :=
            match key0 with
            | some k => alLookup
                ((alLookup st.settings.FRIENDLY_FIELD_ERRORS field.className).getD []) k
            | none => none
          field := some field.fieldName
          message := m }) := by
  refine ⟨?_, ?_, ?_, ?_, ?_⟩
  · intro e h1
    simp [get_field_error_entry, h1]
  · intro k h1 h2 hk
    have hcond : ¬((some k : Option String) = none ∨ (some k : Option String) = some "") := by
      simp [hk]
    simp [get_field_error_entry, h1, h2, hcond, finalFieldEntry]
    intro hfalse
    exact absurd hfalse hk
  · intro key0 v h1 h2 hfalsy h3
    simp [get_field_error_entry, h1, h2, hfalsy, h3]
  · intro key0 hv h1 h2 hfalsy h3 h4 h5
    simp [get_field_error_entry, h1, h2, hfalsy, h3, h4, h5]
  · intro key0 h1 h2 hfalsy h3 h4
    rcases h4 with h4 | ⟨hv, h4, h5 | h5⟩
    · simp [get_field_error_entry, h1, h2, hfalsy, h3, h4, finalFieldEntry]
    · simp [get_field_error_entry, h1, h2, hfalsy, h3, h4, h5, finalFieldEntry]
    · simp [get_field_error_entry, h1, h2, hfalsy, h3, h4, h5, finalFieldEntry]

/-- C1 counterexample: on `fieldC1` the template matcher finds the
(empty-string) constraint key for the message `boom`, so the claim
prescribes the entry `{code: catalog[IntegerField][""] = null, field,
message}`; the code instead treats the empty key as falsy and returns
the matching validator's entry with code 5002. -/
theorem C1_counterexample :
    find_key stC1 fieldC1 "boom" "f" = .ok (some "") ∧
    alLookup ((alLookup stC1.settings.FRIENDLY_FIELD_ERRORS
      fieldC1.className).getD []) "" = none ∧
    get_field_error_entry stC1 "boom" fieldC1 =
      .ok { code := some 5002, field := some "f", message := "boom" } :=
  ⟨rfl, rfl, rfl⟩

/-- Concrete check of the empty-key fall-through branch of the amended
C1: on `fieldC1b` the matcher finds the empty-string key, no validator
or hook matches, and the emitted entry's code is the catalog's entry
under the empty key (2003), not null -- the fall-through reuses the
falsy key for the catalog lookup. -/
theorem empty_key_fallthrough_example :
    find_key stC1b fieldC1b "boom" "f" = .ok (some "") ∧
    find_validator stC1b fieldC1b "boom" = .ok none ∧
    get_field_error_entry stC1b "boom" fieldC1b =
      .ok { code := some 2003, field := some "f", message := "boom" } :=
  ⟨rfl, rfl, rfl⟩

/-- C3 (amended): wherever no reconstructed `value` along the field's
child-relation chain is a list (so the `does_not_exist` handler never
mutates the kwargs in place), the constraint keys are distinct (as they
are for a Python dict) and every declared template formats successfully,
`find_key` computes exactly the spec-worded matcher `find_key_spec`: the
first declared key whose template, formatted with the kwargs
reconstructed from the currently submitted value, equals the message;
recursing over the child relation's constraint mapping when no key of
the field matches; and null exactly when no key matches anywhere.
(With a list-valued `value` the claim fails: after a failed
`does_not_exist` scan the remaining templates are formatted against the
mutated kwargs -- see the counterexample and C10.) -/
theorem C3_find_key_first_match (st : SState) (field : SField) (m fn : String)
    (h : findKeySpecSafe st field fn = true) :
    find_key st field m fn = .ok (find_key_spec st field m fn) :=
  find_key_eq_spec st field m fn h

/-- C3 witness: on a safe field `find_key` and the spec-worded matcher
agree (both find `blank` first). -/
theorem C3_find_key_first_match_witness :
    find_key stW3 charFieldW "This field may not be blank." "name" =
      .ok (find_key_spec stW3 charFieldW "This field may not be blank." "name") :=
  C3_find_key_first_match stW3 charFieldW "This field may not be blank." "name" rfl

/-- C3 counterexample: for the message `b`, no template of `fieldC3`
formatted with the kwargs reconstructed from the submitted value
(`value = ["a", "b"]`) equals the message -- the spec-worded matcher
returns null -- yet `find_key` returns `k2`, because the failed
`does_not_exist` scan left `value` rebound to the last list element
`b`, and `k2`'s template `{value}` then formats to `b`. -/
theorem C3_counterexample :
    find_key stC3 fieldC3 "b" "fld" = .ok (some "k2") ∧
    find_key_spec stC3 fieldC3 "b" "fld" = none :=
  ⟨rfl, rfl⟩

/-- C4: for an entry of the raw error map whose field is a nested
serializer, `build_pretty_errors`' loop enters nested classification
exactly when the submitted payload contains a value under that field
name; when the name is absent, the messages are classified as ordinary
leaf entries (each one a `{code, field, message}` leaf, never a
nested-wrapped result). -/
theorem C4_nested_dispatch (st : SState) (fname : String) (msgs : List String)
    (rest : List (String × List String)) (pretty : List PrettyError)
    (field : SField) (sub : SubSer)
    (hnf : fname ≠ "non_field_errors")
    (hf : alLookup st.fields fname = some field)
    (hss : field.subSer = some sub) :
    (alMem st.initial_data fname = true →
      buildLoop st ((fname, msgs) :: rest) pretty =
        buildLoop st rest (process_sub_serializer st pretty sub fname)) ∧
    (alMem st.initial_data fname = false →
      buildLoop st ((fname, msgs) :: rest) pretty =
        (match get_field_error_entries st msgs field with
         | .error e => .error e
         | .ok es => buildLoop st rest (pretty ++ es.map PrettyError.entry)) ∧
      ∀ es, get_field_error_entries st msgs field = .ok es →
        ∀ pe ∈ es.map PrettyError.entry, isLeafEntry pe = true) := by
  constructor
  · intro hmem
    simp [buildLoop, hnf, hf, hss, hmem]
  · intro hmem
    constructor
    · simp [buildLoop, hnf, hf, hss, hmem]
    · intro es hes pe hpe
      obtain ⟨e, _, rfl⟩ := List.mem_map.mp hpe
      rfl

/-- C4 witness: with `profile` present in the payload the loop hands the
entry to the nested path. -/
theorem C4_nested_dispatch_witness :
    buildLoop stW4 [("profile", ["This field is required."])] [] =
      buildLoop stW4 [] (process_sub_serializer stW4 [] subW4 "profile") :=
  (C4_nested_dispatch stW4 "profile" ["This field is required."] [] []
    serFieldW subW4 (by decide) rfl rfl).1 rfl

/-- Helper: the flattening of one nested record's error dict, written
out: field-defaulted sub-entries followed by the non-field entries when
the `non_field_errors` slot is present. -/
theorem process_sub_serializer_errors_eq (st : SState) (fname : String)
    (d : SubErrDict) :
    process_sub_serializer_errors st d fname =
      (d.errors?.getD []).map (withParentField fname) ++
        (match d.non_field_errors? with
         | some msgs => (get_non_field_error_entries st msgs).map PrettyError.entry
         | none => []) := by
  cases hnfe : d.non_field_errors? <;>
    simp [process_sub_serializer_errors, hnfe]

/-- C5: a `many=False` nested result is wrapped as
`{code: 2901, field: parent name, errors: one ordered list}` where every
sub-entry with a null field is assigned the parent field name and the
record's non-field errors are appended through the non-field builder; a
`many=True` result flattens each record independently by the same rule
and wraps as `{code: 2902, field: parent name, errors: list of lists}`. -/
theorem C5_sub_serializer_wrap (st : SState) (pretty : List PrettyError)
    (sub : SubSer) (fname : String) :
    (∀ d, get_sub_serializer_errors st sub fname = .single d →
      process_sub_serializer st pretty sub fname =
        pretty ++ [.nestedSingle 2901 fname
          ((d.errors?.getD []).map (withParentField fname) ++
            (match d.non_field_errors? with
             | some msgs => (get_non_field_error_entries st msgs).map PrettyError.entry
             | none => []))] ∧
      ∀ e ∈ d.errors?.getD [], fieldOfP (withParentField fname e) =
        some ((fieldOfP e).getD fname)) ∧
    (∀ ds, get_sub_serializer_errors st sub fname = .many ds →
      process_sub_serializer st pretty sub fname =
        pretty ++ [.nestedMany 2902 fname
          (ds.map (fun d =>
            (d.errors?.getD []).map (withParentField fname) ++
              (match d.non_field_errors? with
               | some msgs => (get_non_field_error_entries st msgs).map PrettyError.entry
               | none => [])))]) := by
  constructor
  · intro d hd
    constructor
    · simp [process_sub_serializer, hd, process_sub_serializer_errors_eq]
    · intro e he
      cases e with
      | entry e0 =>
        cases hf0 : e0.field with
        | none => simp [withParentField, fieldOfP, hf0]
        | some g => simp [withParentField, fieldOfP, hf0]
      | nestedSingle c f errs => simp [withParentField, fieldOfP]
      | nestedMany c f errs => simp [withParentField, fieldOfP]
  · intro ds hd
    simp [process_sub_serializer, hd, process_sub_serializer_errors_eq]

/-- C6 counterexample: the claim says the classification pipeline is
total for EVERY raw error map, field set and payload; but for an error
map naming a field the serializer does not declare,
`self.fields[error_type]` raises `KeyError` past the caller. -/
theorem C6_counterexample :
    build_pretty_errors stW [("ghost", ["m"])] = .error .keyError := rfl

/-- C6 (amended): the pipeline never raises provided every key of the
raw error map is the non-field bucket or a declared field, and every
leaf-classified field is safe: its templates (and its child relations')
format successfully under the reconstructed kwargs, and every validator
the reclassifier would re-run either does not ask for the submitted
value or finds its field name in the payload.  Outside these conditions
the code can raise (`KeyError` from `self.fields[...]`, from a template
placeholder missing in the kwargs, or from
`self.initial_data[field.field_name]` in `_run_validator`); the only
deliberately raising path remains `register_error`. -/
theorem C6_total_when_safe (st : SState) (errors : List (String × List String))
    (h : errors.all (entrySafe st) = true) :
    exIsOk (build_pretty_errors st errors) = true :=
  build_pretty_errors_isOk st errors h

/-- C6 witness: a well-formed error map classifies without raising. -/
theorem C6_total_when_safe_witness :
    exIsOk (build_pretty_errors stW6
      [("name", ["This field may not be blank."]),
       ("non_field_errors", ["Some error"])]) = true :=
  C6_total_when_safe stW6
    [("name", ["This field may not be blank."]),
     ("non_field_errors", ["Some error"])] rfl

/-- C7: for a relation field whose reconstructed `value` is a list of
candidate identifiers, a message matches the `does_not_exist` key
whenever substituting ANY single element of the list as the singular
`value` makes the template format to the message: the handler reports a
match and the matcher loop returns `does_not_exist`, independently of
which identifier caused the failure. -/
theorem C7_does_not_exist_any_element (ems : List (String × Template))
    (m : String) (kwargs : Kwargs) (t : Template) (vs : List Value) (v : Value)
    (hval : alLookup kwargs "value" = some (.vlist vs))
    (ht : alLookup ems "does_not_exist" = some t)
    (hv : v ∈ vs)
    (hmatch : format t (alInsert kwargs "value" v) = .ok m) :
    (∃ kw', does_not_exist_many_to_many_handler ems m kwargs = .ok (true, kw')) ∧
    ∀ rest, findKeyLoop ems m ("does_not_exist" :: rest) kwargs =
      .ok (some "does_not_exist") := by
  obtain ⟨kw', hloop⟩ := dneLoop_true_of_exists t m vs kwargs ⟨v, hv, hmatch⟩
  have hhandler : does_not_exist_many_to_many_handler ems m kwargs = .ok (true, kw') := by
    simp [does_not_exist_many_to_many_handler, ht, hval, hloop]
  refine ⟨⟨kw', hhandler⟩, ?_⟩
  intro rest
  have hguard : ("does_not_exist" = "does_not_exist" ∧
      isVList (alLookup kwargs "value") = true) := by
    simp [hval, isVList]
  simp [findKeyLoop, hguard, hhandler]

/-- C7 witness: the message cites the second submitted identifier and is
still classified as `does_not_exist`. -/
theorem C7_does_not_exist_any_element_witness :
    (∃ kw', does_not_exist_many_to_many_handler emsW7 "Invalid pk b" kwargsW7 =
      .ok (true, kw')) ∧
    ∀ rest, findKeyLoop emsW7 "Invalid pk b" ("does_not_exist" :: rest) kwargsW7 =
      .ok (some "does_not_exist") :=
  C7_does_not_exist_any_element emsW7 "Invalid pk b" kwargsW7
    [.lit "Invalid pk ", .var "value"] [.vstr "a", .vstr "b"] (.vstr "b")
    rfl rfl (List.mem_cons_of_mem _ (List.mem_cons_self _ _)) rfl

/-- C10 (implicit frame effect): `does_not_exist_many_to_many_handler`
writes into the very kwargs dict `find_key` passed it, so when the
reconstructed `value` is a non-empty list and the handler returns false,
the rest of that `find_key` pass -- the immediately following format of
the `does_not_exist` template and the formatting of every later
constraint key -- sees `kwargs['value']` bound to the LAST element of
the list instead of the originally reconstructed list. -/
theorem C10_handler_mutates_kwargs (ems : List (String × Template)) (m : String)
    (kwargs kw' : Kwargs) (t : Template) (vs : List Value)
    (hval : alLookup kwargs "value" = some (.vlist vs))
    (hne : vs ≠ [])
    (ht : alLookup ems "does_not_exist" = some t)
    (hh : does_not_exist_many_to_many_handler ems m kwargs = .ok (false, kw')) :
    ∃ v, vs.getLast? = some v ∧
      kw' = alInsert kwargs "value" v ∧
      alLookup kw' "value" = some v ∧
      ∀ rest, findKeyLoop ems m ("does_not_exist" :: rest) kwargs =
        (match format t kw' with
         | .error e => .error e
         | .ok s => if s = m then .ok (some "does_not_exist")
                    else findKeyLoop ems m rest kw') := by
  have hh' : dneLoop t m kwargs vs = .ok (false, kw') := by
    rw [does_not_exist_many_to_many_handler, ht, hval] at hh
    exact hh
  obtain ⟨v, hlast, hkw'⟩ := dneLoop_false_last t m vs kwargs kw' hh' hne
  refine ⟨v, hlast, hkw', ?_, ?_⟩
  · rw [hkw']
    exact alLookup_alInsert_self kwargs "value" v
  · intro rest
    have hguard : ("does_not_exist" = "does_not_exist" ∧
        isVList (alLookup kwargs "value") = true) := by
      simp [hval, isVList]
    simp only [findKeyLoop, if_pos hguard, hh, ht]
    simp [hval, isVList]

/-- C10 witness: after the failed list scan the handler has rebound
`value` to `"b"`, and the rest of the pass runs on the mutated kwargs. -/
theorem C10_handler_mutates_kwargs_witness :
    ∃ v, ([.vstr "a", .vstr "b"] : List Value).getLast? = some v ∧
      alInsert kwargsW7 "value" (.vstr "b") = alInsert kwargsW7 "value" v ∧
      alLookup (alInsert kwargsW7 "value" (.vstr "b")) "value" = some v ∧
      ∀ rest, findKeyLoop emsW10 "zz" ("does_not_exist" :: rest) kwargsW7 =
        (match format [.lit "nope"] (alInsert kwargsW7 "value" (.vstr "b")) with
         | .error e => .error e
         | .ok s => if s = "zz" then .ok (some "does_not_exist")
                    else findKeyLoop emsW10 "zz" rest
                      (alInsert kwargsW7 "value" (.vstr "b"))) :=
  C10_handler_mutates_kwargs emsW10 "zz" kwargsW7
    (alInsert kwargsW7 "value" (.vstr "b")) [.lit "nope"]
    [.vstr "a", .vstr "b"] rfl (List.cons_ne_nil _ _) rfl rfl

/-- C9 witness: the numeric kwargs of `decFieldW` for a submitted
string. -/
theorem C9_numeric_kwargs_witness :
    ∃ kw, get_field_kwargs stW decFieldW (.vstr "x") = .ok kw ∧
      alLookup kw "min_value" = some (optIntV decFieldW.attrs.minValue) ∧
      alLookup kw "max_value" = some (optIntV decFieldW.attrs.maxValue) ∧
      alLookup kw "decimal_places" = some (optIntV decFieldW.attrs.decimalPlaces) ∧
      alLookup kw "max_decimal_places" = some (optIntV decFieldW.attrs.decimalPlaces) ∧
      alLookup kw "max_digits" = some (optIntV decFieldW.attrs.maxDigits) ∧
      alLookup kw "data_type" = some (.vstr (typeName (.vstr "x"))) ∧
      alLookup kw "input_type" = some (.vstr (typeName (.vstr "x"))) ∧
      (∀ md dp, decFieldW.attrs.maxDigits = some md →
        decFieldW.attrs.decimalPlaces = some dp →
        alLookup kw "max_whole_digits" = some (.vint (md - dp))) ∧
      ((decFieldW.attrs.maxDigits = none ∨ decFieldW.attrs.decimalPlaces = none) →
        alLookup kw "max_whole_digits" = none) :=
  C9_numeric_kwargs stW decFieldW (.vstr "x") rfl rfl rfl

/-- C2 witness: registering `"bad"` on `age` with code 42 raises the
composite key `"bad_42_age"`, stores the entry under it and both
builders return it verbatim. -/
theorem C2_register_then_bypass_witness :
    ∃ c, "bad_42_age" = compositeKey "bad" c (some "age") ∧
      alLookup stW2'.registered_errors "bad_42_age" =
        some { code := some c, field := some "age", message := "bad" } ∧
      (∀ field, get_field_error_entry stW2' "bad_42_age" field =
        .ok { code := some c, field := some "age", message := "bad" }) ∧
      get_non_field_error_entry stW2' "bad_42_age" =
        { code := some c, field := some "age", message := "bad" } :=
  C2_register_then_bypass stW "bad" (some "age") none (some 42) stW2' "bad_42_age" rfl

/-- C8 counterexample: the claim says registration must fail when both
`errorKey` and `errorCode` are supplied for a field ("the number of
supplied arguments among errorKey and errorCode differs from exactly
one"); the code instead succeeds, using `errorCode` and ignoring
`errorKey` (the composite key shows code 5 was used, not a catalog
resolution of the bogus key). -/
theorem C8_counterexample :
    (register_error stW "m" (some "age") (some "wrongkey") (some 5)).toOption.map
      Prod.snd = some "m_5_age" := rfl

/-- C8 (amended): `register_error` raises a configuration error exactly
when: `fieldName` and `errorCode` are both null; `fieldName` names no
field; `fieldName` is given with neither `errorKey` nor `errorCode`; or
`errorCode` is null, `errorKey` is given, and the field's type tag or
the key is absent from the catalog.  When both `errorKey` and
`errorCode` are supplied, `errorCode` wins and registration succeeds
(this is where the code differs from the claim as written). -/
theorem C8_register_error_conditions (st : SState) (msg : String)
    (fn : Option String) (ek : Option String) (ec : Option Int) :
    (∃ err, register_error st msg fn ek ec = .error err) ↔
      ((fn = none ∧ ec = none) ∨
       (∃ f, fn = some f ∧ alLookup st.fields f = none) ∨
       (∃ f field, fn = some f ∧ alLookup st.fields f = some field ∧
         ek = none ∧ ec = none) ∨
       (∃ f field k, fn = some f ∧ alLookup st.fields f = some field ∧
         ec = none ∧ ek = some k ∧
         (alLookup st.settings.FRIENDLY_FIELD_ERRORS field.className = none ∨
          ∃ tm, alLookup st.settings.FRIENDLY_FIELD_ERRORS field.className = some tm ∧
            alLookup tm k = none))) := by
  unfold register_error
  cases fn with
  | none =>
    cases ec with
    | none => simp
    | some c => simp
  | some f =>
    cases hf : alLookup st.fields f with
    | none => simp [hf]
    | some field_instance =>
      cases ek with
      | none =>
        cases ec with
        | none => simp [hf]
        | some c => simp [hf]
      | some k =>
        cases ec with
        | some c => simp [hf]
        | none =>
          cases hc1 : alLookup st.settings.FRIENDLY_FIELD_ERRORS
              field_instance.className with
          | none => simp [hf, hc1]
          | some tm =>
            cases hc2 : alLookup tm k with
            | none => simp [hf, hc1, hc2]
            | some c => simp [hf, hc1, hc2]

end FE
